import Mathlib

/-! Woodpecker builtin secret service.

Shallow embedding of `server/plugins/secrets/builtin.go`: the scoped secret
service that forwards to a `model.SecretStore` and, for a build, reduces the
candidate secrets fetched from the store to one secret per name.

Go values are embedded as follows.

* A `*model.Secret` element of a slice is the record it points to.
* A `(value, error)` result is a pair whose second component is `none` for a
  nil error.
* A `[]*model.Secret` result is `none` for the nil slice and `some l` otherwise.
* The store is an interface; a store is a record of state transformers over an
  arbitrary state type, and every service method threads that state.
-/

namespace Woodpecker

/-- Modelled from the spec: the error values of package `model` are not under
`src/`. Section 7 names two conditions, both raised by the store only; the
service compares an error with nil and nothing else. -/
inductive Error where
  | NotFound
  | StoreFailure (msg : String)
  deriving DecidableEq, Repr

/-- Modelled from the spec: `model.Secret` is not under `src/`. A secret is a
named value with an owning repository id and an owning organization/owner id,
either of which may be unpopulated (`0`, the empty string). -/
structure Secret where
  ID : Int
  Owner : String
  RepoID : Int
  Name : String
  Value : String
  deriving DecidableEq, Repr

/-- Modelled from the spec: `model.Secret.Global` is not under `src/`. A secret
is Global-scoped when neither the repository id nor the owner is populated. -/
def Secret.Global (s : Secret) : Bool :=
  s.RepoID == 0 && s.Owner == ""

/-- Modelled from the spec: `model.Secret.Organization` is not under `src/`. A
secret is Organization-scoped when the owner is populated and the repository id
is not. -/
def Secret.Organization (s : Secret) : Bool :=
  s.RepoID == 0 && s.Owner != ""

/-- Modelled from the spec: `model.Repo` is not under `src/`; the service only
passes it on to the store. -/
structure Repo where
  ID : Int
  Owner : String
  deriving DecidableEq, Repr

/-- Modelled from the spec: `model.Build` is not under `src/`; `SecretListBuild`
receives it and never reads it. -/
structure Build where
  ID : Int
  deriving DecidableEq, Repr

/-- The methods of `model.SecretStore` that `builtin.go` calls, as transformers
of a store state `σ`. A bare `*model.Secret` is only passed on and may be nil,
hence `Option Secret`. -/
structure SecretStore (σ : Type) where
  SecretFind : Repo → String → σ → (Option Secret × Option Error) × σ
  SecretList : Repo → Bool → σ → (List Secret × Option Error) × σ
  SecretCreate : Option Secret → σ → Option Error × σ
  SecretUpdate : Option Secret → σ → Option Error × σ
  SecretDelete : Option Secret → σ → Option Error × σ
  OrgSecretFind : String → String → σ → (Option Secret × Option Error) × σ
  OrgSecretList : String → σ → (List Secret × Option Error) × σ
  GlobalSecretFind : String → σ → (Option Secret × Option Error) × σ
  GlobalSecretList : σ → (List Secret × Option Error) × σ

/-- The `builtin` service: a store (the embedded `context.Context` is never
read by the methods embedded here). -/
structure builtin (σ : Type) where
  store : SecretStore σ

/-- One element of the literal slice ranged over by the outer loop of
`SecretListBuild`. -/
structure Cond where
  Global : Bool
  Organization : Bool
  deriving DecidableEq, Repr

/-- The literal `{}, {Organization: true}, {Global: true}`. -/
def conds : List Cond :=
  [⟨false, false⟩, ⟨false, true⟩, ⟨true, false⟩]

/-- The two loop variables of `SecretListBuild`: the slice `secrets` and the key
set of the map `uniq`. -/
structure BuildState where
  secrets : List Secret
  uniq : List String
  deriving DecidableEq, Repr

/-- One iteration of the inner loop (lines 45-54) for the tier `cond`. -/
def innerStep (cond : Cond) (st : BuildState) (secret : Secret) : BuildState :=
  if secret.Global == cond.Global && secret.Organization == cond.Organization then
    st
  else if secret.Name ∈ st.uniq then
    st
  else
    { secrets := st.secrets ++ [secret], uniq := secret.Name :: st.uniq }

/-- The inner loop `for _, secret := range s`. -/
def innerLoop (s : List Secret) (cond : Cond) (st : BuildState) : BuildState :=
  s.foldl (innerStep cond) st

/-- The outer loop `for _, cond := range ...` over a list of tiers. -/
def outerLoop (s : List Secret) (cs : List Cond) (st : BuildState) : BuildState :=
  cs.foldl (fun acc cond => innerLoop s cond acc) st

/-- Lines 33-56 of `SecretListBuild`: the slice built from the fetched
candidates `s`. -/
def buildSecrets (s : List Secret) : List Secret :=
  (outerLoop s conds { secrets := [], uniq := [] }).secrets

/-- The method `SecretListBuild`. -/
def builtin.SecretListBuild {σ : Type} (b : builtin σ) (repo : Repo) (_build : Build)
    (x : σ) : (Option (List Secret) × Option Error) × σ :=
  match b.store.SecretList repo true x with
  | ((_, some err), x') => ((none, some err), x')
  | ((s, none), x') => ((some (buildSecrets s), none), x')

/-- The method `SecretDelete`. -/
def builtin.SecretDelete {σ : Type} (b : builtin σ) (repo : Repo) (name : String)
    (x : σ) : Option Error × σ :=
  match b.store.SecretFind repo name x with
  | ((_, some err), x') => (some err, x')
  | ((secret, none), x') => b.store.SecretDelete secret x'

/-- The method `OrgSecretDelete`. -/
def builtin.OrgSecretDelete {σ : Type} (b : builtin σ) (owner name : String)
    (x : σ) : Option Error × σ :=
  match b.store.OrgSecretFind owner name x with
  | ((_, some err), x') => (some err, x')
  | ((secret, none), x') => b.store.SecretDelete secret x'

/-- The method `GlobalSecretDelete`. -/
def builtin.GlobalSecretDelete {σ : Type} (b : builtin σ) (name : String)
    (x : σ) : Option Error × σ :=
  match b.store.GlobalSecretFind name x with
  | ((_, some err), x') => (some err, x')
  | ((secret, none), x') => b.store.SecretDelete secret x'

/-! ## Observing the calls made on a store -/

/-- A call made on the store, with its arguments. -/
inductive StoreCall where
  | SecretFind (repo : Repo) (name : String)
  | SecretList (repo : Repo) (includeGlobalAndOrgSecrets : Bool)
  | SecretCreate (secret : Option Secret)
  | SecretUpdate (secret : Option Secret)
  | SecretDelete (secret : Option Secret)
  | OrgSecretFind (owner name : String)
  | OrgSecretList (owner : String)
  | GlobalSecretFind (name : String)
  | GlobalSecretList
  deriving DecidableEq, Repr

/-- The store `st` with a log: every method behaves as in `st` and appends its
call to the log carried next to the state. -/
def SecretStore.traced {σ : Type} (st : SecretStore σ) : SecretStore (σ × List StoreCall) where
  SecretFind := fun repo name x =>
    ((st.SecretFind repo name x.1).1,
      ((st.SecretFind repo name x.1).2, x.2 ++ [StoreCall.SecretFind repo name]))
  SecretList := fun repo all x =>
    ((st.SecretList repo all x.1).1,
      ((st.SecretList repo all x.1).2, x.2 ++ [StoreCall.SecretList repo all]))
  SecretCreate := fun secret x =>
    ((st.SecretCreate secret x.1).1,
      ((st.SecretCreate secret x.1).2, x.2 ++ [StoreCall.SecretCreate secret]))
  SecretUpdate := fun secret x =>
    ((st.SecretUpdate secret x.1).1,
      ((st.SecretUpdate secret x.1).2, x.2 ++ [StoreCall.SecretUpdate secret]))
  SecretDelete := fun secret x =>
    ((st.SecretDelete secret x.1).1,
      ((st.SecretDelete secret x.1).2, x.2 ++ [StoreCall.SecretDelete secret]))
  OrgSecretFind := fun owner name x =>
    ((st.OrgSecretFind owner name x.1).1,
      ((st.OrgSecretFind owner name x.1).2, x.2 ++ [StoreCall.OrgSecretFind owner name]))
  OrgSecretList := fun owner x =>
    ((st.OrgSecretList owner x.1).1,
      ((st.OrgSecretList owner x.1).2, x.2 ++ [StoreCall.OrgSecretList owner]))
  GlobalSecretFind := fun name x =>
    ((st.GlobalSecretFind name x.1).1,
      ((st.GlobalSecretFind name x.1).2, x.2 ++ [StoreCall.GlobalSecretFind name]))
  GlobalSecretList := fun x =>
    ((st.GlobalSecretList x.1).1,
      ((st.GlobalSecretList x.1).2, x.2 ++ [StoreCall.GlobalSecretList]))

/-! ## Two stores to run the service on -/

/-- Looks a record up in a list: found, or `NotFound`. -/
def findIn (db : List Secret) (p : Secret → Bool) : Option Secret × Option Error :=
  match db.find? p with
  | some y => (some y, none)
  | none => (none, some Error.NotFound)

/-- A store whose state is the list of its records, in fetch order. Listing for
a repository with the inclusion flag set yields the repository's records
together with those of its owner and the global ones. -/
def listStore : SecretStore (List Secret) where
  SecretFind := fun repo name db =>
    (findIn db (fun y => y.RepoID == repo.ID && y.Name == name), db)
  SecretList := fun repo all db =>
    ((db.filter (fun y => y.RepoID == repo.ID ||
        (all && (y.Global || (y.Organization && y.Owner == repo.Owner)))), none), db)
  SecretCreate := fun secret db =>
    match secret with
    | some y => (none, db ++ [y])
    | none => (some (Error.StoreFailure "nil secret"), db)
  SecretUpdate := fun secret db =>
    match secret with
    | some y => (none, db.map (fun z => if z.ID = y.ID then y else z))
    | none => (some (Error.StoreFailure "nil secret"), db)
  SecretDelete := fun secret db =>
    match secret with
    | some y => (none, db.filter (fun z => z.ID != y.ID))
    | none => (some (Error.StoreFailure "nil secret"), db)
  OrgSecretFind := fun owner name db =>
    (findIn db (fun y => y.Organization && y.Owner == owner && y.Name == name), db)
  OrgSecretList := fun owner db =>
    ((db.filter (fun y => y.Organization && y.Owner == owner), none), db)
  GlobalSecretFind := fun name db =>
    (findIn db (fun y => y.Global && y.Name == name), db)
  GlobalSecretList := fun db => ((db.filter (fun y => y.Global), none), db)

/-- A store in which every operation fails with the same persistence error. -/
def downStore : SecretStore Unit where
  SecretFind := fun _ _ x => ((none, some (Error.StoreFailure "down")), x)
  SecretList := fun _ _ x => (([], some (Error.StoreFailure "down")), x)
  SecretCreate := fun _ x => (some (Error.StoreFailure "down"), x)
  SecretUpdate := fun _ x => (some (Error.StoreFailure "down"), x)
  SecretDelete := fun _ x => (some (Error.StoreFailure "down"), x)
  OrgSecretFind := fun _ _ x => ((none, some (Error.StoreFailure "down")), x)
  OrgSecretList := fun _ x => (([], some (Error.StoreFailure "down")), x)
  GlobalSecretFind := fun _ x => ((none, some (Error.StoreFailure "down")), x)
  GlobalSecretList := fun x => (([], some (Error.StoreFailure "down")), x)

/-! ## Concrete secrets used in the scenarios -/

/-- Repository-scoped `token = r1`. -/
def repoToken : Secret := { ID := 1, Owner := "", RepoID := 7, Name := "token", Value := "r1" }

/-- Organization-scoped `token = o1`. -/
def orgToken : Secret := { ID := 2, Owner := "acme", RepoID := 0, Name := "token", Value := "o1" }

/-- Global-scoped `token = g1`. -/
def globalToken : Secret := { ID := 3, Owner := "", RepoID := 0, Name := "token", Value := "g1" }

/-- Repository-scoped `api_key = r2`. -/
def repoApiKey : Secret := { ID := 4, Owner := "", RepoID := 7, Name := "api_key", Value := "r2" }

/-- A second Organization-scoped `token`, with another value. -/
def orgToken2 : Secret := { ID := 5, Owner := "acme", RepoID := 0, Name := "token", Value := "o2" }

/-- The repository of the scenarios: id 7, owned by `acme`. -/
def repo7 : Repo := { ID := 7, Owner := "acme" }

/-- A build of `repo7`. -/
def build1 : Build := { ID := 1 }

/-! ## Predicates used in the statements -/

/-- The test of line 46: the iteration for `secret` stops at the first
`continue`. -/
def skipped (c : Cond) (a : Secret) : Bool :=
  a.Global == c.Global && a.Organization == c.Organization

/-- The map `uniq` holds exactly the names of the secrets appended so far, and
no name was appended twice. -/
def Synced (st : BuildState) : Prop :=
  (∀ n, n ∈ st.uniq ↔ n ∈ st.secrets.map Secret.Name) ∧ (st.secrets.map Secret.Name).Nodup

/-- The first candidate of `s` with the name and the tier of `x`. -/
def firstLike (s : List Secret) (x : Secret) : Option Secret :=
  s.find? (fun y => y.Name == x.Name && y.Global == x.Global &&
    y.Organization == x.Organization)

/-! ## The loops, step by step -/

theorem innerLoop_cons (a : Secret) (t : List Secret) (c : Cond) (st : BuildState) :
    innerLoop (a :: t) c st = innerLoop t c (innerStep c st a) := rfl

theorem innerStep_of_skipped {c : Cond} {st : BuildState} {a : Secret}
    (h : skipped c a = true) : innerStep c st a = st := by
  unfold skipped at h
  unfold innerStep
  rw [if_pos h]

theorem innerStep_of_seen {c : Cond} {st : BuildState} {a : Secret}
    (h : a.Name ∈ st.uniq) : innerStep c st a = st := by
  unfold innerStep
  by_cases hs : (a.Global == c.Global && a.Organization == c.Organization) = true
  · rw [if_pos hs]
  · rw [if_neg hs, if_pos h]

theorem innerStep_of_fresh {c : Cond} {st : BuildState} {a : Secret}
    (h : skipped c a = false) (hn : a.Name ∉ st.uniq) :
    innerStep c st a = { secrets := st.secrets ++ [a], uniq := a.Name :: st.uniq } := by
  unfold innerStep
  have h' : ¬ ((a.Global == c.Global && a.Organization == c.Organization) = true) := by
    unfold skipped at h
    rw [h]; exact Bool.false_ne_true
  rw [if_neg h', if_neg hn]

/-- An iteration either leaves the state alone or appends the unskipped, unseen
secret. -/
theorem innerStep_cases (c : Cond) (st : BuildState) (a : Secret) :
    innerStep c st a = st ∨
      (skipped c a = false ∧ a.Name ∉ st.uniq ∧
        innerStep c st a = { secrets := st.secrets ++ [a], uniq := a.Name :: st.uniq }) := by
  by_cases h : skipped c a = true
  · exact Or.inl (innerStep_of_skipped h)
  · by_cases hn : a.Name ∈ st.uniq
    · exact Or.inl (innerStep_of_seen hn)
    · have h' : skipped c a = false := by simpa using h
      exact Or.inr ⟨h', hn, innerStep_of_fresh h' hn⟩

theorem synced_init : Synced { secrets := [], uniq := [] } := by
  constructor
  · intro n; simp
  · simp

theorem innerStep_synced {c : Cond} {st : BuildState} (a : Secret) (h : Synced st) :
    Synced (innerStep c st a) := by
  rcases innerStep_cases c st a with e | ⟨_, hn, e⟩
  · rw [e]; exact h
  · rw [e]
    obtain ⟨h1, h2⟩ := h
    constructor
    · intro n
      simp only [List.mem_cons, List.map_append, List.map_cons, List.map_nil, List.mem_append,
        List.mem_singleton, h1 n]
      tauto
    · simp only [List.map_append, List.map_cons, List.map_nil]
      rw [List.nodup_append]
      refine ⟨h2, by simp, ?_⟩
      intro n hn1 hn2
      simp only [List.mem_singleton] at hn2
      subst hn2
      exact hn ((h1 _).2 hn1)

theorem innerLoop_synced (s : List Secret) (c : Cond) :
    ∀ st : BuildState, Synced st → Synced (innerLoop s c st) := by
  induction s with
  | nil => intro st h; exact h
  | cons a t ih =>
    intro st h
    rw [innerLoop_cons]
    exact ih _ (innerStep_synced a h)

theorem innerStep_uniq_mono {c : Cond} {st : BuildState} (a : Secret) {n : String}
    (h : n ∈ st.uniq) : n ∈ (innerStep c st a).uniq := by
  rcases innerStep_cases c st a with e | ⟨_, _, e⟩
  · rw [e]; exact h
  · rw [e]; exact List.mem_cons_of_mem _ h

theorem innerLoop_uniq_mono (s : List Secret) (c : Cond) {n : String} :
    ∀ st : BuildState, n ∈ st.uniq → n ∈ (innerLoop s c st).uniq := by
  induction s with
  | nil => intro st h; exact h
  | cons a t ih =>
    intro st h
    rw [innerLoop_cons]
    exact ih _ (innerStep_uniq_mono a h)

theorem innerStep_marks {c : Cond} {st : BuildState} {a : Secret}
    (h : skipped c a = false) : a.Name ∈ (innerStep c st a).uniq := by
  by_cases hn : a.Name ∈ st.uniq
  · exact innerStep_uniq_mono a hn
  · rw [innerStep_of_fresh h hn]; exact List.mem_cons_self _ _

/-- After a pass every candidate the pass did not skip has its name marked. -/
theorem innerLoop_marks (s : List Secret) (c : Cond) :
    ∀ st : BuildState, ∀ y ∈ s, skipped c y = false → y.Name ∈ (innerLoop s c st).uniq := by
  induction s with
  | nil => intro st y hy; cases hy
  | cons a t ih =>
    intro st y hy hsk
    rw [innerLoop_cons]
    rcases List.mem_cons.1 hy with e | hy'
    · subst e
      exact innerLoop_uniq_mono t c _ (innerStep_marks hsk)
    · exact ih _ y hy' hsk

/-- What a pass appends: a secret it did not skip, whose name was unmarked, and
which is the first unskipped candidate of that name. -/
theorem innerLoop_new (s : List Secret) (c : Cond) :
    ∀ st : BuildState, ∀ x ∈ (innerLoop s c st).secrets,
      x ∈ st.secrets ∨
        (skipped c x = false ∧ x.Name ∉ st.uniq ∧
          s.find? (fun y => !skipped c y && y.Name == x.Name) = some x) := by
  induction s with
  | nil => intro st x hx; exact Or.inl hx
  | cons a t ih =>
    intro st x hx
    rw [innerLoop_cons] at hx
    rcases ih _ x hx with h | ⟨hsk, hn, hf⟩
    · rcases innerStep_cases c st a with e | ⟨hska, hna, e⟩
      · rw [e] at h; exact Or.inl h
      · rw [e] at h
        rcases List.mem_append.1 h with h | h
        · exact Or.inl h
        · have hxa : x = a := by simpa using h
          subst hxa
          refine Or.inr ⟨hska, hna, ?_⟩
          simp [List.find?_cons, hska]
    · rcases innerStep_cases c st a with e | ⟨hska, hna, e⟩
      · rw [e] at hn
        refine Or.inr ⟨hsk, hn, ?_⟩
        by_cases hska : skipped c a = true
        · simp [List.find?_cons, hska, hf]
        · have hne : a.Name ≠ x.Name := by
            intro heq
            have hm : a.Name ∈ (innerStep c st a).uniq :=
              innerStep_marks (by simpa using hska)
            rw [e, heq] at hm
            exact hn hm
          simp [List.find?_cons, hne, hf]
      · rw [e] at hn
        have hne : a.Name ≠ x.Name := fun heq => hn (heq ▸ List.mem_cons_self _ _)
        refine Or.inr ⟨hsk, fun hm => hn (List.mem_cons_of_mem _ hm), ?_⟩
        simp [List.find?_cons, hne, hf]

/-- Every appended secret is one of the candidates. -/
theorem innerLoop_mem (s : List Secret) (c : Cond) (st : BuildState) :
    ∀ x ∈ (innerLoop s c st).secrets, x ∈ st.secrets ∨ x ∈ s := by
  intro x hx
  rcases innerLoop_new s c st x hx with h | ⟨_, _, hf⟩
  · exact Or.inl h
  · exact Or.inr (List.mem_of_find?_eq_some hf)

theorem find?_narrow {p q : Secret → Bool} {x : Secret} (s : List Secret)
    (hf : s.find? p = some x) (hpq : ∀ y, q y = true → p y = true) (hq : q x = true) :
    s.find? q = some x := by
  induction s with
  | nil => simp at hf
  | cons a t ih =>
    rw [List.find?_cons] at hf ⊢
    by_cases hpa : p a = true
    · rw [hpa] at hf
      have hxa : a = x := by simpa using hf
      subst hxa
      rw [hq]
    · have hpa' : p a = false := by simpa using hpa
      have hqa : q a = false := by
        cases hqa : q a
        · rfl
        · exact absurd (hpq a hqa) hpa
      rw [hpa'] at hf
      rw [hqa]
      exact ih hf

/-- The three passes of the outer loop, written out. -/
theorem buildSecrets_eq (s : List Secret) :
    buildSecrets s =
      (innerLoop s ⟨true, false⟩ (innerLoop s ⟨false, true⟩
        (innerLoop s ⟨false, false⟩ { secrets := [], uniq := [] }))).secrets := rfl

/-! ## What the three passes build -/

theorem buildSecrets_synced (s : List Secret) :
    Synced (innerLoop s ⟨true, false⟩ (innerLoop s ⟨false, true⟩
      (innerLoop s ⟨false, false⟩ { secrets := [], uniq := [] }))) :=
  innerLoop_synced s _ _ (innerLoop_synced s _ _ (innerLoop_synced s _ _ synced_init))

/-- No two secrets of the result share a name. -/
theorem buildSecrets_nodup (s : List Secret) :
    ((buildSecrets s).map Secret.Name).Nodup := by
  rw [buildSecrets_eq]
  exact (buildSecrets_synced s).2

/-- Every secret of the result is a candidate. -/
theorem buildSecrets_mem (s : List Secret) : ∀ x ∈ buildSecrets s, x ∈ s := by
  intro x hx
  rw [buildSecrets_eq] at hx
  rcases innerLoop_mem s _ _ x hx with h | h
  · rcases innerLoop_mem s _ _ x h with h | h
    · rcases innerLoop_mem s _ _ x h with h | h
      · cases h
      · exact h
    · exact h
  · exact h

/-- A candidate that the Repository pass skips is not skipped by the
Organization pass. -/
theorem skipped_second_of_first {y : Secret} (h : skipped ⟨false, false⟩ y = true) :
    skipped ⟨false, true⟩ y = false := by
  unfold skipped at h ⊢
  cases hg : y.Global <;> cases ho : y.Organization <;> simp_all

/-- The name of every candidate is the name of a secret of the result. -/
theorem buildSecrets_covers (s : List Secret) :
    ∀ y ∈ s, y.Name ∈ (buildSecrets s).map Secret.Name := by
  intro y hy
  rw [buildSecrets_eq]
  rw [← (buildSecrets_synced s).1]
  apply innerLoop_uniq_mono
  by_cases h : skipped ⟨false, false⟩ y = true
  · exact innerLoop_marks s _ _ y hy (skipped_second_of_first h)
  · apply innerLoop_uniq_mono
    exact innerLoop_marks s _ _ y hy (by simpa using h)

theorem firstLike_of_new {s : List Secret} {c : Cond} {x : Secret}
    (hsk : skipped c x = false)
    (hf : s.find? (fun y => !skipped c y && y.Name == x.Name) = some x) :
    firstLike s x = some x := by
  unfold firstLike
  refine find?_narrow s hf ?_ (by simp)
  intro y hy
  simp only [Bool.and_eq_true, beq_iff_eq] at hy
  obtain ⟨⟨hn, hg⟩, ho⟩ := hy
  have : skipped c y = skipped c x := by
    unfold skipped
    rw [hg, ho]
  simp [this, hsk, hn]

/-- Every secret of the result is the first candidate of its name and tier. -/
theorem buildSecrets_first (s : List Secret) :
    ∀ x ∈ buildSecrets s, firstLike s x = some x := by
  intro x hx
  rw [buildSecrets_eq] at hx
  rcases innerLoop_new s _ _ x hx with h | ⟨hsk, _, hf⟩
  · rcases innerLoop_new s _ _ x h with h | ⟨hsk, _, hf⟩
    · rcases innerLoop_new s _ _ x h with h | ⟨hsk, _, hf⟩
      · cases h
      · exact firstLike_of_new hsk hf
    · exact firstLike_of_new hsk hf
  · exact firstLike_of_new hsk hf

/-- The number of secrets named `n` in the result. -/
theorem buildSecrets_count (s : List Secret) (n : String) :
    (buildSecrets s).countP (fun x => x.Name == n) =
      if n ∈ s.map Secret.Name then 1 else 0 := by
  have hc : (buildSecrets s).countP (fun x => x.Name == n) =
      ((buildSecrets s).map Secret.Name).count n := by
    rw [List.count, List.countP_map]
    rfl
  rw [hc, List.count_eq_of_nodup (buildSecrets_nodup s)]
  have hiff : n ∈ (buildSecrets s).map Secret.Name ↔ n ∈ s.map Secret.Name := by
    constructor
    · intro h
      obtain ⟨x, hx, rfl⟩ := List.mem_map.1 h
      exact List.mem_map.2 ⟨x, buildSecrets_mem s x hx, rfl⟩
    · intro h
      obtain ⟨y, hy, rfl⟩ := List.mem_map.1 h
      exact buildSecrets_covers s y hy
  by_cases h : n ∈ s.map Secret.Name
  · rw [if_pos h, if_pos (hiff.2 h)]
  · rw [if_neg h, if_neg (fun h' => h (hiff.1 h'))]

/-- A successful fetch of `s` makes `SecretListBuild` return `buildSecrets s`,
a nil error and the store as the fetch left it. -/
theorem SecretListBuild_of_fetch {σ : Type} (b : builtin σ) (repo : Repo) (build : Build)
    (x x' : σ) (s : List Secret) (hfetch : b.store.SecretList repo true x = ((s, none), x')) :
    b.SecretListBuild repo build x = ((some (buildSecrets s), none), x') := by
  unfold builtin.SecretListBuild
  rw [hfetch]

/-- A failed fetch makes `SecretListBuild` return the nil slice and the error of
the fetch. -/
theorem SecretListBuild_of_error {σ : Type} (b : builtin σ) (repo : Repo) (build : Build)
    (x x' : σ) (s : List Secret) (err : Error)
    (hfetch : b.store.SecretList repo true x = ((s, some err), x')) :
    b.SecretListBuild repo build x = ((none, some err), x') := by
  unfold builtin.SecretListBuild
  rw [hfetch]

/-- The first candidate like `x` is `x`: `x` stands in `s` after no candidate of
its name and tier. -/
theorem split_of_firstLike {s : List Secret} {x : Secret} (h : firstLike s x = some x) :
    ∃ pre post, s = pre ++ x :: post ∧
      ∀ a ∈ pre, ¬ (a.Name = x.Name ∧ a.Global = x.Global ∧ a.Organization = x.Organization) := by
  unfold firstLike at h
  obtain ⟨_, pre, post, hs, hpre⟩ := List.find?_eq_some.1 h
  refine ⟨pre, post, hs, ?_⟩
  intro a ha hlike
  have := hpre a ha
  simp [hlike.1, hlike.2.1, hlike.2.2] at this

/-! ## The claims -/

/-- C1 (code defect): with the candidates Repository `token=r1`, Organization
`token=o1`, Global `token=g1`, in this order, `SecretListBuild` returns the
Organization-scoped secret alone; the Repository-scoped `token` is dropped. -/
theorem C1_repository_secret_dropped :
    repoToken.Global = false ∧ repoToken.Organization = false ∧
    orgToken.Organization = true ∧ globalToken.Global = true ∧
    listStore.SecretList repo7 true [repoToken, orgToken, globalToken] =
      (([repoToken, orgToken, globalToken], none), [repoToken, orgToken, globalToken]) ∧
    (builtin.SecretListBuild ⟨listStore⟩ repo7 build1 [repoToken, orgToken, globalToken]).1 =
      (some [orgToken], none) := by
  decide

/-- C2 (code defect): with the candidates Global `token=g1`, Organization
`token=o1`, in this order and no Repository-scoped `token`, `SecretListBuild`
returns the Global-scoped secret; with the two listed the other way round it
returns the Organization-scoped one. -/
theorem C2_organization_secret_dropped :
    globalToken.Global = true ∧ globalToken.Organization = false ∧
    orgToken.Global = false ∧ orgToken.Organization = true ∧
    listStore.SecretList repo7 true [globalToken, orgToken] =
      (([globalToken, orgToken], none), [globalToken, orgToken]) ∧
    (builtin.SecretListBuild ⟨listStore⟩ repo7 build1 [globalToken, orgToken]).1 =
      (some [globalToken], none) ∧
    (builtin.SecretListBuild ⟨listStore⟩ repo7 build1 [orgToken, globalToken]).1 =
      (some [orgToken], none) := by
  decide

/-- C3: when the fetch yields the candidates `s`, the list returned by
`SecretListBuild` holds exactly one secret named `n` if some candidate is named
`n` and none otherwise; its names are pairwise distinct and every candidate's
name is the name of one of its secrets. -/
theorem C3_one_secret_per_name {σ : Type} (b : builtin σ) (repo : Repo) (build : Build)
    (x x' : σ) (s : List Secret)
    (hfetch : b.store.SecretList repo true x = ((s, none), x')) (n : String) :
    ∃ l, (b.SecretListBuild repo build x).1 = (some l, none) ∧
      l.countP (fun y => y.Name == n) = (if ∃ y ∈ s, y.Name = n then 1 else 0) ∧
      (l.map Secret.Name).Nodup ∧
      ∀ y ∈ s, ∃ z ∈ l, z.Name = y.Name := by
  refine ⟨buildSecrets s, ?_, ?_, buildSecrets_nodup s, ?_⟩
  · rw [SecretListBuild_of_fetch b repo build x x' s hfetch]
  · rw [buildSecrets_count]
    by_cases h : n ∈ s.map Secret.Name
    · rw [if_pos h, if_pos (by simpa using h)]
    · rw [if_neg h, if_neg (by simpa using h)]
  · intro y hy
    simpa using buildSecrets_covers s y hy

/-- C3 at the candidates Repository `token`, Organization `token`, Global
`token`, Repository `api_key` and the name `token`. -/
theorem C3_one_secret_per_name_witness :
    listStore.SecretList repo7 true [repoToken, orgToken, globalToken, repoApiKey] =
      (([repoToken, orgToken, globalToken, repoApiKey], none),
        [repoToken, orgToken, globalToken, repoApiKey]) ∧
    ∃ l, (builtin.SecretListBuild ⟨listStore⟩ repo7 build1
        [repoToken, orgToken, globalToken, repoApiKey]).1 = (some l, none) ∧
      l.countP (fun y => y.Name == "token") =
        (if ∃ y ∈ [repoToken, orgToken, globalToken, repoApiKey], y.Name = "token"
          then 1 else 0) ∧
      (l.map Secret.Name).Nodup ∧
      ∀ y ∈ [repoToken, orgToken, globalToken, repoApiKey], ∃ z ∈ l, z.Name = y.Name :=
  ⟨by decide, C3_one_secret_per_name ⟨listStore⟩ repo7 build1
      [repoToken, orgToken, globalToken, repoApiKey] [repoToken, orgToken, globalToken, repoApiKey]
      [repoToken, orgToken, globalToken, repoApiKey] (by decide) "token"⟩

/-- C4: when every candidate named `n` has the scope of the candidate `y` named
`n`, the list returned by `SecretListBuild` holds a candidate named `n` of that
scope, and it holds `y` itself when `y` is the only candidate named `n`. -/
theorem C4_pass_through {σ : Type} (b : builtin σ) (repo : Repo) (build : Build)
    (x x' : σ) (s : List Secret)
    (hfetch : b.store.SecretList repo true x = ((s, none), x'))
    (n : String) (y : Secret) (hy : y ∈ s) (hn : y.Name = n)
    (hone : ∀ z ∈ s, z.Name = n → z.Global = y.Global ∧ z.Organization = y.Organization) :
    ∃ l, (b.SecretListBuild repo build x).1 = (some l, none) ∧
      (∃ z ∈ l, z ∈ s ∧ z.Name = n ∧ z.Global = y.Global ∧ z.Organization = y.Organization) ∧
      ((∀ z ∈ s, z.Name = n → z = y) → y ∈ l) := by
  refine ⟨buildSecrets s, ?_, ?_, ?_⟩
  · rw [SecretListBuild_of_fetch b repo build x x' s hfetch]
  · obtain ⟨z, hz, hzn⟩ := List.mem_map.1 (buildSecrets_covers s y hy)
    have hzs := buildSecrets_mem s z hz
    have hzn' : z.Name = n := hzn.trans hn
    exact ⟨z, hz, hzs, hzn', hone z hzs hzn'⟩
  · intro honly
    obtain ⟨z, hz, hzn⟩ := List.mem_map.1 (buildSecrets_covers s y hy)
    have hzy : z = y := honly z (buildSecrets_mem s z hz) (hzn.trans hn)
    rw [← hzy]
    exact hz

/-- C4 at the candidates Global `token=g1`, Repository `api_key=r2` and the name
`token`; the returned list is these two secrets and nothing else. -/
theorem C4_pass_through_witness :
    (listStore.SecretList repo7 true [globalToken, repoApiKey] =
      (([globalToken, repoApiKey], none), [globalToken, repoApiKey]) ∧
    globalToken ∈ [globalToken, repoApiKey] ∧
    globalToken.Name = "token" ∧
    (∀ z ∈ [globalToken, repoApiKey], z.Name = "token" →
      z.Global = globalToken.Global ∧ z.Organization = globalToken.Organization)) ∧
    (∃ l, (builtin.SecretListBuild ⟨listStore⟩ repo7 build1 [globalToken, repoApiKey]).1 =
        (some l, none) ∧
      (∃ z ∈ l, z ∈ [globalToken, repoApiKey] ∧ z.Name = "token" ∧
        z.Global = globalToken.Global ∧ z.Organization = globalToken.Organization) ∧
      ((∀ z ∈ [globalToken, repoApiKey], z.Name = "token" → z = globalToken) →
        globalToken ∈ l)) ∧
    (builtin.SecretListBuild ⟨listStore⟩ repo7 build1 [globalToken, repoApiKey]).1 =
      (some [globalToken, repoApiKey], none) :=
  ⟨⟨by decide, by decide, by decide, by decide⟩,
    C4_pass_through ⟨listStore⟩ repo7 build1 [globalToken, repoApiKey]
      [globalToken, repoApiKey] [globalToken, repoApiKey] (by decide) "token" globalToken
      (by decide) (by decide) (by decide),
    by decide⟩

/-- C5 (code defect): with the candidates Global `token=g1`, Repository
`api_key=r2`, in this order, `SecretListBuild` returns the Global-scoped secret
before the Repository-scoped one. -/
theorem C5_global_before_repository :
    globalToken.Global = true ∧
    repoApiKey.Global = false ∧ repoApiKey.Organization = false ∧
    listStore.SecretList repo7 true [globalToken, repoApiKey] =
      (([globalToken, repoApiKey], none), [globalToken, repoApiKey]) ∧
    (builtin.SecretListBuild ⟨listStore⟩ repo7 build1 [globalToken, repoApiKey]).1 =
      (some [globalToken, repoApiKey], none) := by
  decide

/-- C6: when the fetch yields the candidates `s`, every secret of the list
returned by `SecretListBuild` is an element of `s`, and the fetch is the only
call the method makes on the store. -/
theorem C6_selects_only {σ : Type} (st : SecretStore σ) (repo : Repo) (build : Build)
    (x x' : σ) (s : List Secret)
    (hfetch : st.SecretList repo true x = ((s, none), x')) :
    ∃ l, builtin.SecretListBuild ⟨st.traced⟩ repo build (x, []) =
        ((some l, none), (x', [StoreCall.SecretList repo true])) ∧
      ∀ y ∈ l, y ∈ s := by
  refine ⟨buildSecrets s, ?_, buildSecrets_mem s⟩
  apply SecretListBuild_of_fetch
  simp [SecretStore.traced, hfetch]

/-- C6 at the candidates Repository `token`, Organization `token`, Global
`token`. -/
theorem C6_selects_only_witness :
    listStore.SecretList repo7 true [repoToken, orgToken, globalToken] =
      (([repoToken, orgToken, globalToken], none), [repoToken, orgToken, globalToken]) ∧
    ∃ l, builtin.SecretListBuild ⟨listStore.traced⟩ repo7 build1
        ([repoToken, orgToken, globalToken], []) =
        ((some l, none),
          ([repoToken, orgToken, globalToken], [StoreCall.SecretList repo7 true])) ∧
      ∀ y ∈ l, y ∈ [repoToken, orgToken, globalToken] :=
  ⟨by decide, C6_selects_only listStore repo7 build1 [repoToken, orgToken, globalToken]
    [repoToken, orgToken, globalToken] [repoToken, orgToken, globalToken] (by decide)⟩

/-- C7: when the fetch returns an error, `SecretListBuild` returns the nil slice
with that error; when the fetch returns no error, it returns a slice with a nil
error; in both cases the error returned is the error of the fetch and the store
is left as the fetch left it. -/
theorem C7_fails_iff_fetch_fails {σ : Type} (b : builtin σ) (repo : Repo) (build : Build)
    (x : σ) :
    (∀ s err x', b.store.SecretList repo true x = ((s, some err), x') →
      b.SecretListBuild repo build x = ((none, some err), x')) ∧
    (∀ s x', b.store.SecretList repo true x = ((s, none), x') →
      ∃ l, b.SecretListBuild repo build x = ((some l, none), x')) ∧
    (b.SecretListBuild repo build x).1.2 = (b.store.SecretList repo true x).1.2 ∧
    (b.SecretListBuild repo build x).2 = (b.store.SecretList repo true x).2 := by
  refine ⟨?_, ?_, ?_, ?_⟩
  · intro s err x' h
    exact SecretListBuild_of_error b repo build x x' s err h
  · intro s x' h
    exact ⟨buildSecrets s, SecretListBuild_of_fetch b repo build x x' s h⟩
  · rcases h : b.store.SecretList repo true x with ⟨⟨s, e⟩, x'⟩
    cases e with
    | none => rw [SecretListBuild_of_fetch b repo build x x' s h]
    | some err => rw [SecretListBuild_of_error b repo build x x' s err h]
  · rcases h : b.store.SecretList repo true x with ⟨⟨s, e⟩, x'⟩
    cases e with
    | none => rw [SecretListBuild_of_fetch b repo build x x' s h]
    | some err => rw [SecretListBuild_of_error b repo build x x' s err h]

/-- C7 on a store whose fetch fails and on a store whose fetch succeeds. -/
theorem C7_fails_iff_fetch_fails_witness :
    builtin.SecretListBuild ⟨downStore⟩ repo7 build1 () =
      ((none, some (Error.StoreFailure "down")), ()) ∧
    ∃ l, builtin.SecretListBuild ⟨listStore⟩ repo7 build1 [repoToken, orgToken] =
      ((some l, none), [repoToken, orgToken]) :=
  ⟨(C7_fails_iff_fetch_fails ⟨downStore⟩ repo7 build1 ()).1 []
      (Error.StoreFailure "down") () rfl,
    (C7_fails_iff_fetch_fails ⟨listStore⟩ repo7 build1 [repoToken, orgToken]).2.1
      [repoToken, orgToken] [repoToken, orgToken] (by decide)⟩

/-- C8: each of `SecretDelete`, `OrgSecretDelete` and `GlobalSecretDelete` makes
its scoped find first. When the find returns an error, the method returns that
error and the find is the only call made on the store. When the find returns no
error, the method then calls the store's `SecretDelete` once, with the secret
the find returned, and returns what that call returns. -/
theorem C8_delete_after_find {σ : Type} (st : SecretStore σ) (repo : Repo)
    (owner name : String) (x : σ) :
    (∀ sec err x', st.SecretFind repo name x = ((sec, some err), x') →
      builtin.SecretDelete ⟨st.traced⟩ repo name (x, []) =
        (some err, (x', [StoreCall.SecretFind repo name]))) ∧
    (∀ sec x', st.SecretFind repo name x = ((sec, none), x') →
      builtin.SecretDelete ⟨st.traced⟩ repo name (x, []) =
        ((st.SecretDelete sec x').1, ((st.SecretDelete sec x').2,
          [StoreCall.SecretFind repo name, StoreCall.SecretDelete sec]))) ∧
    (∀ sec err x', st.OrgSecretFind owner name x = ((sec, some err), x') →
      builtin.OrgSecretDelete ⟨st.traced⟩ owner name (x, []) =
        (some err, (x', [StoreCall.OrgSecretFind owner name]))) ∧
    (∀ sec x', st.OrgSecretFind owner name x = ((sec, none), x') →
      builtin.OrgSecretDelete ⟨st.traced⟩ owner name (x, []) =
        ((st.SecretDelete sec x').1, ((st.SecretDelete sec x').2,
          [StoreCall.OrgSecretFind owner name, StoreCall.SecretDelete sec]))) ∧
    (∀ sec err x', st.GlobalSecretFind name x = ((sec, some err), x') →
      builtin.GlobalSecretDelete ⟨st.traced⟩ name (x, []) =
        (some err, (x', [StoreCall.GlobalSecretFind name]))) ∧
    (∀ sec x', st.GlobalSecretFind name x = ((sec, none), x') →
      builtin.GlobalSecretDelete ⟨st.traced⟩ name (x, []) =
        ((st.SecretDelete sec x').1, ((st.SecretDelete sec x').2,
          [StoreCall.GlobalSecretFind name, StoreCall.SecretDelete sec]))) := by
  refine ⟨?_, ?_, ?_, ?_, ?_, ?_⟩
  · intro sec err x' h
    simp [builtin.SecretDelete, SecretStore.traced, h]
  · intro sec x' h
    simp [builtin.SecretDelete, SecretStore.traced, h]
  · intro sec err x' h
    simp [builtin.OrgSecretDelete, SecretStore.traced, h]
  · intro sec x' h
    simp [builtin.OrgSecretDelete, SecretStore.traced, h]
  · intro sec err x' h
    simp [builtin.GlobalSecretDelete, SecretStore.traced, h]
  · intro sec x' h
    simp [builtin.GlobalSecretDelete, SecretStore.traced, h]

/-- C8 on the store holding Repository `token`, Organization `token` and Global
`token`: deleting the missing name `nope` at each scope returns `NotFound` after
the find alone and leaves the three records; deleting `token` at each scope
removes the record of that scope after one find and one delete. -/
theorem C8_delete_after_find_witness :
    (builtin.SecretDelete ⟨listStore.traced⟩ repo7 "nope"
        ([repoToken, orgToken, globalToken], []) =
      (some Error.NotFound,
        ([repoToken, orgToken, globalToken], [StoreCall.SecretFind repo7 "nope"])) ∧
    builtin.OrgSecretDelete ⟨listStore.traced⟩ "acme" "nope"
        ([repoToken, orgToken, globalToken], []) =
      (some Error.NotFound,
        ([repoToken, orgToken, globalToken], [StoreCall.OrgSecretFind "acme" "nope"])) ∧
    builtin.GlobalSecretDelete ⟨listStore.traced⟩ "nope"
        ([repoToken, orgToken, globalToken], []) =
      (some Error.NotFound,
        ([repoToken, orgToken, globalToken], [StoreCall.GlobalSecretFind "nope"]))) ∧
    (builtin.SecretDelete ⟨listStore.traced⟩ repo7 "token"
        ([repoToken, orgToken, globalToken], []) =
      (none, ([orgToken, globalToken],
        [StoreCall.SecretFind repo7 "token", StoreCall.SecretDelete (some repoToken)])) ∧
    builtin.OrgSecretDelete ⟨listStore.traced⟩ "acme" "token"
        ([repoToken, orgToken, globalToken], []) =
      (none, ([repoToken, globalToken],
        [StoreCall.OrgSecretFind "acme" "token", StoreCall.SecretDelete (some orgToken)])) ∧
    builtin.GlobalSecretDelete ⟨listStore.traced⟩ "token"
        ([repoToken, orgToken, globalToken], []) =
      (none, ([repoToken, orgToken],
        [StoreCall.GlobalSecretFind "token", StoreCall.SecretDelete (some globalToken)]))) :=
  ⟨⟨(C8_delete_after_find listStore repo7 "acme" "nope"
        [repoToken, orgToken, globalToken]).1 none Error.NotFound
        [repoToken, orgToken, globalToken] (by decide),
      (C8_delete_after_find listStore repo7 "acme" "nope"
        [repoToken, orgToken, globalToken]).2.2.1 none Error.NotFound
        [repoToken, orgToken, globalToken] (by decide),
      (C8_delete_after_find listStore repo7 "acme" "nope"
        [repoToken, orgToken, globalToken]).2.2.2.2.1 none Error.NotFound
        [repoToken, orgToken, globalToken] (by decide)⟩,
    ⟨(C8_delete_after_find listStore repo7 "acme" "token"
        [repoToken, orgToken, globalToken]).2.1 (some repoToken)
        [repoToken, orgToken, globalToken] (by decide),
      (C8_delete_after_find listStore repo7 "acme" "token"
        [repoToken, orgToken, globalToken]).2.2.2.1 (some orgToken)
        [repoToken, orgToken, globalToken] (by decide),
      (C8_delete_after_find listStore repo7 "acme" "token"
        [repoToken, orgToken, globalToken]).2.2.2.2.2 (some globalToken)
        [repoToken, orgToken, globalToken] (by decide)⟩⟩

/-- C9: when the fetch succeeds with no candidate, `SecretListBuild` returns an
empty, non-nil list and a nil error. -/
theorem C9_empty {σ : Type} (b : builtin σ) (repo : Repo) (build : Build) (x x' : σ)
    (hfetch : b.store.SecretList repo true x = (([], none), x')) :
    b.SecretListBuild repo build x = ((some [], none), x') := by
  rw [SecretListBuild_of_fetch b repo build x x' [] hfetch]
  rfl

/-- C9 on the store holding no record. -/
theorem C9_empty_witness :
    listStore.SecretList repo7 true [] = (([], none), []) ∧
    builtin.SecretListBuild ⟨listStore⟩ repo7 build1 [] = ((some [], none), []) :=
  ⟨by decide, C9_empty ⟨listStore⟩ repo7 build1 [] [] (by decide)⟩

/-- C10: when the fetch yields the candidates `s`, every secret `z` of the list
returned by `SecretListBuild` stands in `s` at a place before which no candidate
has both the name and the scope tier of `z`. -/
theorem C10_first_in_store_order {σ : Type} (b : builtin σ) (repo : Repo) (build : Build)
    (x x' : σ) (s : List Secret)
    (hfetch : b.store.SecretList repo true x = ((s, none), x')) :
    ∃ l, (b.SecretListBuild repo build x).1 = (some l, none) ∧
      ∀ z ∈ l, ∃ pre post, s = pre ++ z :: post ∧
        ∀ a ∈ pre,
          ¬ (a.Name = z.Name ∧ a.Global = z.Global ∧ a.Organization = z.Organization) := by
  refine ⟨buildSecrets s, ?_, ?_⟩
  · rw [SecretListBuild_of_fetch b repo build x x' s hfetch]
  · intro z hz
    exact split_of_firstLike (buildSecrets_first s z hz)

/-- C10 at two Organization-scoped candidates named `token`, `o1` listed before
`o2`: the returned list is `o1` alone. -/
theorem C10_first_in_store_order_witness :
    listStore.SecretList repo7 true [orgToken, orgToken2] =
      (([orgToken, orgToken2], none), [orgToken, orgToken2]) ∧
    (∃ l, (builtin.SecretListBuild ⟨listStore⟩ repo7 build1 [orgToken, orgToken2]).1 =
        (some l, none) ∧
      ∀ z ∈ l, ∃ pre post, [orgToken, orgToken2] = pre ++ z :: post ∧
        ∀ a ∈ pre,
          ¬ (a.Name = z.Name ∧ a.Global = z.Global ∧ a.Organization = z.Organization)) ∧
    (builtin.SecretListBuild ⟨listStore⟩ repo7 build1 [orgToken, orgToken2]).1 =
      (some [orgToken], none) :=
  ⟨by decide,
    C10_first_in_store_order ⟨listStore⟩ repo7 build1 [orgToken, orgToken2]
      [orgToken, orgToken2] [orgToken, orgToken2] (by decide),
    by decide⟩

end Woodpecker
